import Mathlib

/-!
Verification of the Kaizen live-twin replay engine.

This file gives a shallow embedding of the two core source files of the
repository — `live/pine_twin.py` (the `PineTwin_KaizenV2_Logic` class) and
`live/run_twin.py` (`run_simulation`) — and proves or refutes the frozen
claims about them.  Prices and PnL are modelled as rationals, timestamps as
integers (milliseconds), Python `np.nan`-or-value fields as `Option`, the
Python `set` of used level ids as a `Finset Int`, and the bounded
`collections.deque(maxlen=30)` buffers as lists trimmed to 30 elements.
-/

set_option maxRecDepth 40000

set_option allowUnsafeReducibility true in
attribute [semireducible] Rat.add Rat.mul Rat.sub Rat.inv Rat.div Rat.neg

namespace Kaizen

/-- A single OHLCV bar as consumed by `on_bar_close` / `run_simulation`. -/
structure Bar where
  time : Int
  open_ : ℚ
  high : ℚ
  low : ℚ
  close : ℚ
  volume : ℚ
deriving DecidableEq

/-- `self.filters_on` (set to `True` in `__init__` and never changed). -/
def filters_on : Bool := true

/-- `self.cooldown_min = 15` (minutes). -/
def cooldown_min : Int := 15

/-- `self.expansion_bars = 10`. -/
def expansion_bars : Int := 10

/-- `self.mintick = 0.25`. -/
def mintick : ℚ := 1/4

/-- `rr_target = 2.0` in `run_simulation`. -/
def rr_target : ℚ := 2

/-- Minutes past midnight in ET of a UTC millisecond timestamp, as computed by
`on_bar_close` (UTC minus 5 hours, then `hour * 60 + minute`). -/
def tMin (ts : Int) : Int :=
  Int.ediv (Int.emod (Int.ediv ts 1000 - 18000) 86400) 60

/-- The session window test `570 <= t_min <= 975` (09:30–16:15 ET). -/
def inSession (ts : Int) : Bool :=
  decide (570 ≤ tMin ts) && decide (tMin ts ≤ 975)

/-- Append to a `collections.deque(maxlen=30)`: drop the oldest element when
the buffer is full. -/
def dequeAppend {α : Type} (l : List α) (x : α) : List α :=
  if l.length < 30 then l ++ [x] else l.tail ++ [x]

/-- The strict pivot-high test of `on_bar_close`: the candidate at relative
position `-6` must be strictly greater than the highs at relative positions
`-11 .. -1` (skipping itself). -/
def pivotHighOk (hs : List ℚ) : Bool :=
  (List.range 11).all fun j =>
    j == 5 || decide (hs.getD (hs.length - 11 + j) 0 < hs.getD (hs.length - 6) 0)

/-- The strict pivot-low test of `on_bar_close` (candidate strictly below all
ten neighbours). -/
def pivotLowOk (ls : List ℚ) : Bool :=
  (List.range 11).all fun j =>
    j == 5 || decide (ls.getD (ls.length - 6) 0 < ls.getD (ls.length - 11 + j) 0)

/-- Arming step: a qualifying candidate becomes the provisional level only if
no provisional level of that side is currently armed. -/
def armLevel (ok : Bool) (cand : ℚ × Int) (prov : Option (ℚ × Int)) :
    Option (ℚ × Int) :=
  if ok && prov.isNone then some cand else prov

/-- Invalidation of a provisional high: discarded when the current bar's high
strictly exceeds it. -/
def invalidateHigh (barHigh : ℚ) : Option (ℚ × Int) → Option (ℚ × Int)
  | some pi => if pi.1 < barHigh then none else some pi
  | none => none

/-- Invalidation of a provisional low: discarded when the current bar's low
strictly undercuts it. -/
def invalidateLow (barLow : ℚ) : Option (ℚ × Int) → Option (ℚ × Int)
  | some pi => if barLow < pi.1 then none else some pi
  | none => none

/-- Promotion step: a provisional level whose age reaches 15 bars replaces the
confirmed level of its side; returns `(confirmed, provisional)` afterwards. -/
def promote (bar_index : Int) (prov conf : Option (ℚ × Int)) :
    Option (ℚ × Int) × Option (ℚ × Int) :=
  match prov with
  | some pi => if 15 ≤ bar_index - pi.2 then (some pi, none) else (conf, some pi)
  | none => (conf, none)

/-- One bar of the true-range / RMA(14) state machine: returns the new
`prev_atr`, the new `tr_buffer`, and the ATR value for this bar (`none` while
still warming up). -/
def atrStep (prev_close prev_atr : Option ℚ) (tr_buffer : List ℚ) (bar : Bar) :
    Option ℚ × List ℚ × Option ℚ :=
  let tr := match prev_close with
    | none => bar.high - bar.low
    | some pc => max (bar.high - bar.low) (max |bar.high - pc| |bar.low - pc|)
  match prev_atr with
  | none =>
    let tb := tr_buffer ++ [tr]
    if tb.length = 14 then
      let a := tb.sum / 14
      (some a, tb, some a)
    else (none, tb, none)
  | some pa =>
    let a := (pa * 13 + tr) / 14
    (some a, tr_buffer, some a)

/-- The configuration-independent part of the `PineTwin_KaizenV2_Logic` state:
buffers, ATR state, bar index, expansion-regime end index and pivot levels.
A provisional or confirmed level is `some (price, origin bar index)`. -/
structure TwinCore where
  bar_index : Int
  expansion_end_idx : Int
  prov_maj_high : Option (ℚ × Int)
  conf_maj_high : Option (ℚ × Int)
  prov_maj_low : Option (ℚ × Int)
  conf_maj_low : Option (ℚ × Int)
  highs : List ℚ
  lows : List ℚ
  closes : List ℚ
  volumes : List ℚ
  times : List Int
  indices : List Int
  prev_atr : Option ℚ
  prev_close : Option ℚ
  tr_buffer : List ℚ
deriving DecidableEq

/-- The per-bar indicator/structure outputs available once warm-up is done. -/
structure CoreInfo where
  atr : ℚ
  vol_ma : ℚ
  active_high : Option (ℚ × Int)
  active_low : Option (ℚ × Int)
deriving DecidableEq

/-- The flag-independent portion of `on_bar_close`: buffer updates, ATR,
then — once at least 20 bars are buffered and the ATR exists — the volume MA,
the expansion-event update and the full pivot lifecycle (arm, invalidate,
promote) with the resulting active levels.  Returns `none` as second component
exactly when the source returns early (`len(closes) < 20 or isnan(atr_val)`). -/
def coreStep (c : TwinCore) (bar : Bar) : TwinCore × Option CoreInfo :=
  let bi := c.bar_index + 1
  let highs := dequeAppend c.highs bar.high
  let lows := dequeAppend c.lows bar.low
  let closes := dequeAppend c.closes bar.close
  let volumes := dequeAppend c.volumes bar.volume
  let times := dequeAppend c.times bar.time
  let indices := dequeAppend c.indices bi
  let av := atrStep c.prev_close c.prev_atr c.tr_buffer bar
  let c1 : TwinCore :=
    { c with
      bar_index := bi, highs := highs, lows := lows, closes := closes,
      volumes := volumes, times := times, indices := indices,
      prev_atr := av.1, prev_close := some bar.close, tr_buffer := av.2.1 }
  match av.2.2 with
  | none => (c1, none)
  | some atr =>
    if closes.length < 20 then (c1, none)
    else
      let vol_slice := volumes.drop (volumes.length - 20)
      let vol_ma := vol_slice.sum / (vol_slice.length : ℚ)
      let is_expansion_event := decide (mintick * 10 ≤ atr) &&
        decide ((3/2 : ℚ) * atr ≤ bar.high - bar.low) && decide (vol_ma ≤ bar.volume)
      let eei := if is_expansion_event then bi + expansion_bars else c.expansion_end_idx
      let cand_high := highs.getD (highs.length - 6) 0
      let cand_low := lows.getD (lows.length - 6) 0
      let cand_abs_idx := indices.getD (indices.length - 6) 0
      let ph0 := armLevel (pivotHighOk highs) (cand_high, cand_abs_idx) c.prov_maj_high
      let pl0 := armLevel (pivotLowOk lows) (cand_low, cand_abs_idx) c.prov_maj_low
      let ph1 := invalidateHigh bar.high ph0
      let pl1 := invalidateLow bar.low pl0
      let hpair := promote bi ph1 c.conf_maj_high
      let lpair := promote bi pl1 c.conf_maj_low
      let c2 : TwinCore :=
        { c1 with
          expansion_end_idx := eei,
          prov_maj_high := hpair.2, conf_maj_high := hpair.1,
          prov_maj_low := lpair.2, conf_maj_low := lpair.1 }
      (c2, some { atr := atr, vol_ma := vol_ma,
                  active_high := hpair.1.orElse (fun _ => hpair.2),
                  active_low := lpair.1.orElse (fun _ => lpair.2) })

/-- Regime gating test: `use_regime_gate and filters_on and
(bar_index < expansion_end_idx)`. -/
def isGatedByRegime (flag : Bool) (bar_index expansion_end_idx : Int) : Bool :=
  flag && filters_on && decide (bar_index < expansion_end_idx)

/-- Cooldown test: `use_cooldown and filters_on and
(timestamp < last_loss_time + cooldown_min * 60 * 1000)`. -/
def isCooldownActive (flag : Bool) (ts last_loss_time : Int) : Bool :=
  flag && filters_on && decide (ts < last_loss_time + cooldown_min * 60 * 1000)

/-- Signal direction. -/
inductive Dir
  | LONG
  | SHORT
deriving DecidableEq

/-- The signal packet returned by `on_bar_close` (`{'signal', 'sl', 'atr'}`).
`lvl_id` is ghost instrumentation: the level id marked used at emission (the
value of `active_high_id` / `active_low_id` at the trigger site); it is not a
key of the source dict and is used only to state at-most-once properties. -/
structure Signal where
  signal : Dir
  sl : ℚ
  atr : ℚ
  lvl_id : Int
deriving DecidableEq

/-- The trigger block of `on_bar_close`: high side first (SHORT), low side
only if no SHORT fired; each side requires trading to be permitted, the level
id not yet used, a sweep of the level and a close back within the 5%-of-ATR
tolerance; firing marks the id used.  Returns the signal and the updated used
set. -/
def triggerEval (taking : Bool) (used : Finset Int) (atr : ℚ) (bar : Bar)
    (activeHigh activeLow : Option (ℚ × Int)) : Option Signal × Finset Int :=
  let hres : Option Signal × Finset Int :=
    match activeHigh with
    | some pi =>
      if taking = true ∧ pi.2 ∉ used ∧ pi.1 < bar.high ∧
          bar.close ≤ pi.1 + atr * (5/100) then
        (some ⟨Dir.SHORT, pi.1 + atr * (25/100), atr, pi.2⟩, insert pi.2 used)
      else (none, used)
    | none => (none, used)
  match hres.1 with
  | some s => (some s, hres.2)
  | none =>
    match activeLow with
    | some pi =>
      if taking = true ∧ pi.2 ∉ hres.2 ∧ bar.low < pi.1 ∧
          pi.1 - atr * (5/100) ≤ bar.close then
        (some ⟨Dir.LONG, pi.1 - atr * (25/100), atr, pi.2⟩, insert pi.2 hres.2)
      else (none, hres.2)
    | none => (none, hres.2)

/-- The full `PineTwin_KaizenV2_Logic` mutable state. -/
structure TwinState where
  use_regime_gate : Bool
  use_cooldown : Bool
  use_usage_gate : Bool
  last_loss_time : Int
  used_levels : Finset Int
  core : TwinCore
deriving DecidableEq

/-- `is_taking_trades` of `on_bar_close`, evaluated on the already-updated
core `c2`: not regime-gated, not in cooldown, and inside the session. -/
def takingTrades (s : TwinState) (c2 : TwinCore) (bar : Bar) : Bool :=
  !isGatedByRegime s.use_regime_gate c2.bar_index c2.expansion_end_idx &&
  !isCooldownActive s.use_cooldown bar.time s.last_loss_time &&
  inSession bar.time

/-- `PineTwin_KaizenV2_Logic.on_bar_close`: indicator and structure update,
gate evaluation, then the sweep-and-reclaim triggers.  Returns the new state
and the optional signal packet. -/
def on_bar_close (s : TwinState) (bar : Bar) : TwinState × Option Signal :=
  let cs := coreStep s.core bar
  match cs.2 with
  | none => ({ s with core := cs.1 }, none)
  | some info =>
    let taking := takingTrades s cs.1 bar
    let tres := triggerEval taking s.used_levels info.atr bar info.active_high info.active_low
    ({ s with core := cs.1, used_levels := tres.2 }, tres.1)

/-- `PineTwin_KaizenV2_Logic.record_loss`. -/
def record_loss (s : TwinState) (ts : Int) : TwinState :=
  { s with last_loss_time := ts }

/-- State transition of the twin alone (discarding the signal). -/
def stepTwin (s : TwinState) (bar : Bar) : TwinState := (on_bar_close s bar).1

/-- The per-bar signal outputs of the twin over a bar feed. -/
def twinSignals : TwinState → List Bar → List (Option Signal)
  | _, [] => []
  | s, bar :: rest =>
    let r := on_bar_close s bar
    r.2 :: twinSignals r.1 rest

/-- `PineTwin_KaizenV2_Logic.__init__` with the three configuration flags. -/
def init_twin (r c u : Bool) : TwinState :=
  { use_regime_gate := r, use_cooldown := c, use_usage_gate := u,
    last_loss_time := 0, used_levels := ∅,
    core := { bar_index := -1, expansion_end_idx := 0,
              prov_maj_high := none, conf_maj_high := none,
              prov_maj_low := none, conf_maj_low := none,
              highs := [], lows := [], closes := [], volumes := [],
              times := [], indices := [], prev_atr := none, prev_close := none,
              tr_buffer := [] } }

/-- Twin state after a full feed from a fresh instance. -/
def runTwinState (r c u : Bool) (bars : List Bar) : TwinState :=
  bars.foldl stepTwin (init_twin r c u)

/-- Per-bar signal outputs of a full feed from a fresh instance. -/
def runTwinSignals (r c u : Bool) (bars : List Bar) : List (Option Signal) :=
  twinSignals (init_twin r c u) bars

/-- Exit reasons recorded by `run_simulation` (the five reason strings). -/
inductive Reason
  | slHit
  | tpHit
  | reverse
  | slHitSameBar
  | tpHitSameBar
deriving DecidableEq

/-- A closed-trade record `{'exit_time', 'pnl', 'reason'}`. -/
structure Trade where
  exit_time : Int
  pnl : ℚ
  reason : Reason
deriving DecidableEq

/-- The execution state of `run_simulation`.  Each closed trade is paired with
a ghost Boolean recording whether `twin.record_loss` was invoked at that
close; `fired_log` is a ghost list of the level ids of the emitted signals in
emission order.  The entry fields are meaningful only while
`current_pos ≠ 0` (the source parks `np.nan` there; we use `0`). -/
structure SimState where
  twin : TwinState
  closed_trades : List (Trade × Bool)
  current_pos : Int
  entry_price : ℚ
  entry_sl : ℚ
  entry_tp : ℚ
  pending_signal : Option Signal
  fired_log : List Int
deriving DecidableEq

/-- Phase 1 of `run_simulation`'s per-bar loop: stop/target exit checks for a
position opened on a prior bar, stop checked first; a stop exit calls
`record_loss`. -/
def exitPhase (st : SimState) (bar : Bar) : SimState :=
  if st.current_pos = 1 then
    if bar.low ≤ st.entry_sl then
      { st with
        twin := record_loss st.twin bar.time,
        closed_trades := st.closed_trades ++
          [(⟨bar.time, (st.entry_sl - st.entry_price) * 2, Reason.slHit⟩, true)],
        current_pos := 0, entry_price := 0 }
    else if st.entry_tp ≤ bar.high then
      { st with
        closed_trades := st.closed_trades ++
          [(⟨bar.time, (st.entry_tp - st.entry_price) * 2, Reason.tpHit⟩, false)],
        current_pos := 0, entry_price := 0 }
    else st
  else if st.current_pos = -1 then
    if st.entry_sl ≤ bar.high then
      { st with
        twin := record_loss st.twin bar.time,
        closed_trades := st.closed_trades ++
          [(⟨bar.time, (st.entry_price - st.entry_sl) * 2, Reason.slHit⟩, true)],
        current_pos := 0, entry_price := 0 }
    else if bar.low ≤ st.entry_tp then
      { st with
        closed_trades := st.closed_trades ++
          [(⟨bar.time, (st.entry_price - st.entry_tp) * 2, Reason.tpHit⟩, false)],
        current_pos := 0, entry_price := 0 }
    else st
  else st

/-- The fill risk distance of `run_simulation`: `abs(fill_price - sig_sl)`
floored at five ticks. -/
def fillRisk (sig : Signal) (bar : Bar) : ℚ :=
  if |bar.open_ - sig.sl| < mintick * 5 then mintick * 5 else |bar.open_ - sig.sl|

/-- The target price computed at fill time: `fill ± risk * rr_target`. -/
def fillTp (sig : Signal) (bar : Bar) : ℚ :=
  if sig.signal = Dir.LONG then bar.open_ + fillRisk sig bar * rr_target
  else bar.open_ - fillRisk sig bar * rr_target

/-- The signed position of a direction (`1` for LONG, `-1` for SHORT). -/
def dirInt (d : Dir) : Int :=
  if d = Dir.LONG then 1 else -1

/-- Phase 2 of `run_simulation`'s per-bar loop: fill a pending signal at this
bar's open (risk distance floored at five ticks, target at `rr_target` times
risk), synthetically closing any still-open position at the fill price with
reason `Reverse` first (arming the cooldown only on a negative flip PnL), and
finally the same-bar stop/target re-check of the freshly opened position
(`sameBarCheck`, the source's trailing `if current_pos == 1 ... elif
current_pos == -1` block: stop first, then target). -/
def sameBarCheck (st2 : SimState) (bar : Bar) : SimState :=
  if st2.current_pos = 1 then
    if bar.low ≤ st2.entry_sl then
      { st2 with
        twin := record_loss st2.twin bar.time,
        closed_trades := st2.closed_trades ++
          [(⟨bar.time, (st2.entry_sl - st2.entry_price) * 2, Reason.slHitSameBar⟩, true)],
        current_pos := 0 }
    else if st2.entry_tp ≤ bar.high then
      { st2 with
        closed_trades := st2.closed_trades ++
          [(⟨bar.time, (st2.entry_tp - st2.entry_price) * 2, Reason.tpHitSameBar⟩, false)],
        current_pos := 0 }
    else st2
  else if st2.current_pos = -1 then
    if st2.entry_sl ≤ bar.high then
      { st2 with
        twin := record_loss st2.twin bar.time,
        closed_trades := st2.closed_trades ++
          [(⟨bar.time, (st2.entry_price - st2.entry_sl) * 2, Reason.slHitSameBar⟩, true)],
        current_pos := 0 }
    else if bar.low ≤ st2.entry_tp then
      { st2 with
        closed_trades := st2.closed_trades ++
          [(⟨bar.time, (st2.entry_price - st2.entry_tp) * 2, Reason.tpHitSameBar⟩, false)],
        current_pos := 0 }
    else st2
  else st2

/-- Phase 2 entry handling of `run_simulation` (see `sameBarCheck` above). -/
def entryPhase (st : SimState) (bar : Bar) : SimState :=
  match st.pending_signal with
  | none => st
  | some sig =>
    let fill := bar.open_
    let new_pos : Int := dirInt sig.signal
    let target_tp := fillTp sig bar
    let st1 :=
      if st.current_pos ≠ 0 then
        let flip_pnl :=
          if st.current_pos = 1 then (fill - st.entry_price) * 2
          else (st.entry_price - fill) * 2
        { st with
          closed_trades := st.closed_trades ++
            [(⟨bar.time, flip_pnl, Reason.reverse⟩, decide (flip_pnl < 0))],
          twin := if flip_pnl < 0 then record_loss st.twin bar.time else st.twin }
      else st
    let st2 : SimState :=
      { st1 with
        current_pos := new_pos, entry_price := fill, entry_sl := sig.sl,
        entry_tp := target_tp, pending_signal := none }
    sameBarCheck st2 bar

/-- One full iteration of `run_simulation`'s loop: exits, entries (with
same-bar re-check), then the logic phase `on_bar_close`, queueing a freshly
emitted signal as the pending signal for the next bar. -/
def simStep (st : SimState) (bar : Bar) : SimState :=
  let st2 := entryPhase (exitPhase st bar) bar
  let r := on_bar_close st2.twin bar
  match r.2 with
  | some sig =>
    { st2 with
      twin := r.1, pending_signal := some sig,
      fired_log := st2.fired_log ++ [sig.lvl_id] }
  | none => { st2 with twin := r.1 }

/-- Iterate `simStep` over a bar feed. -/
def simRun : SimState → List Bar → SimState
  | st, [] => st
  | st, bar :: rest => simRun (simStep st bar) rest

/-- The initial execution state of `run_simulation`. -/
def init_sim (r c u : Bool) : SimState :=
  { twin := init_twin r c u, closed_trades := [], current_pos := 0,
    entry_price := 0, entry_sl := 0, entry_tp := 0, pending_signal := none,
    fired_log := [] }

/-- `run_simulation` over a bar feed with the given gate configuration. -/
def run_simulation (r c u : Bool) (bars : List Bar) : SimState :=
  simRun (init_sim r c u) bars

/-- Convenience constructor for concrete bars. -/
def mkBar (ts : Int) (o h l c v : ℚ) : Bar :=
  ⟨ts, o, h, l, c, v⟩

/-- A concrete 39-bar feed (one-minute bars inside the session starting at
10:00 ET): flat warm-up, a descent to a pivot low of 95 at bar index 21
(armed at bar 26, confirmed at bar 36), a sweep of that level at bar 37
emitting a LONG signal, and a gap-down bar 38 whose open is below the
signal's stop. -/
def masterBars : List Bar := [
  mkBar 54000000 (201/2) (101) (100) (201/2) 100,
  mkBar 54060000 (201/2) (101) (100) (201/2) 100,
  mkBar 54120000 (201/2) (101) (100) (201/2) 100,
  mkBar 54180000 (201/2) (101) (100) (201/2) 100,
  mkBar 54240000 (201/2) (101) (100) (201/2) 100,
  mkBar 54300000 (201/2) (101) (100) (201/2) 100,
  mkBar 54360000 (201/2) (101) (100) (201/2) 100,
  mkBar 54420000 (201/2) (101) (100) (201/2) 100,
  mkBar 54480000 (201/2) (101) (100) (201/2) 100,
  mkBar 54540000 (201/2) (101) (100) (201/2) 100,
  mkBar 54600000 (201/2) (101) (100) (201/2) 100,
  mkBar 54660000 (201/2) (201/2) (199/2) (100) 100,
  mkBar 54720000 (100) (100) (99) (199/2) 100,
  mkBar 54780000 (199/2) (199/2) (197/2) (99) 100,
  mkBar 54840000 (99) (99) (98) (197/2) 100,
  mkBar 54900000 (197/2) (197/2) (195/2) (98) 100,
  mkBar 54960000 (98) (98) (97) (195/2) 100,
  mkBar 55020000 (195/2) (195/2) (193/2) (97) 100,
  mkBar 55080000 (97) (97) (96) (193/2) 100,
  mkBar 55140000 (193/2) (387/4) (383/4) (385/4) 100,
  mkBar 55200000 (385/4) (193/2) (191/2) (96) 100,
  mkBar 55260000 (96) (96) (95) (191/2) 100,
  mkBar 55320000 (191/2) (193/2) (191/2) (96) 100,
  mkBar 55380000 (96) (97) (96) (193/2) 100,
  mkBar 55440000 (193/2) (389/4) (385/4) (387/4) 100,
  mkBar 55500000 (387/4) (195/2) (193/2) (97) 100,
  mkBar 55560000 (97) (391/4) (387/4) (389/4) 100,
  mkBar 55620000 (389/4) (391/4) (387/4) (389/4) 100,
  mkBar 55680000 (389/4) (391/4) (387/4) (389/4) 100,
  mkBar 55740000 (389/4) (391/4) (387/4) (389/4) 100,
  mkBar 55800000 (389/4) (391/4) (387/4) (389/4) 100,
  mkBar 55860000 (389/4) (391/4) (387/4) (389/4) 100,
  mkBar 55920000 (389/4) (391/4) (387/4) (389/4) 100,
  mkBar 55980000 (389/4) (391/4) (387/4) (389/4) 100,
  mkBar 56040000 (389/4) (391/4) (387/4) (389/4) 100,
  mkBar 56100000 (389/4) (391/4) (387/4) (389/4) 100,
  mkBar 56160000 (389/4) (391/4) (387/4) (389/4) 100,
  mkBar 56220000 (389/4) (383/4) (379/4) (381/4) 100,
  mkBar 56280000 (93) (375/4) (371/4) (373/4) 100]

/-- The sweep bar (index 37) of `masterBars`. -/
def sweepBar : Bar := mkBar 56220000 (389/4) (383/4) (379/4) (381/4) 100

/-- The sweep bar with an out-of-session timestamp (16:40 ET) and identical
OHLCV. -/
def sweepBarOOS : Bar := mkBar 78000000 (389/4) (383/4) (379/4) (381/4) 100

/-- The twin state (all flags off) just before the sweep bar. -/
def state37 : TwinState := runTwinState false false false (masterBars.take 37)

/-! ### Helper lemmas -/

theorem atrStep_none_iff (pc pa : Option ℚ) (tb : List ℚ) (bar : Bar) :
    (atrStep pc pa tb bar).2.2 = none ↔ pa = none ∧ tb.length ≠ 13 := by
  cases pa with
  | none =>
    simp only [atrStep]
    split
    · next h =>
      simp only [List.length_append, List.length_singleton] at h
      simp
      omega
    · next h =>
      simp only [List.length_append, List.length_singleton] at h
      simp
      omega
  | some pa => simp [atrStep]

theorem coreStep_none_iff (c : TwinCore) (bar : Bar) :
    (coreStep c bar).2 = none ↔
      (dequeAppend c.closes bar.close).length < 20 ∨
        (c.prev_atr = none ∧ c.tr_buffer.length ≠ 13) := by
  have hiff := atrStep_none_iff c.prev_close c.prev_atr c.tr_buffer bar
  simp only [coreStep]
  rcases h : (atrStep c.prev_close c.prev_atr c.tr_buffer bar).2.2 with _ | atr
  · rw [h] at hiff
    simp only [true_iff] at hiff
    simp [hiff]
  · rw [h] at hiff
    simp only
    split
    · next hl => simp [hl]
    · next hl =>
      constructor
      · intro habs
        exact absurd habs (by simp)
      · intro hor
        rcases hor with hlt | hpa
        · exact absurd hlt hl
        · exact absurd (hiff.mpr hpa) (by simp)

theorem coreStep_early_frame (c : TwinCore) (bar : Bar)
    (h : (coreStep c bar).2 = none) :
    (coreStep c bar).1.prov_maj_high = c.prov_maj_high ∧
    (coreStep c bar).1.conf_maj_high = c.conf_maj_high ∧
    (coreStep c bar).1.prov_maj_low = c.prov_maj_low ∧
    (coreStep c bar).1.conf_maj_low = c.conf_maj_low ∧
    (coreStep c bar).1.expansion_end_idx = c.expansion_end_idx ∧
    (coreStep c bar).1.bar_index = c.bar_index + 1 := by
  simp only [coreStep] at h ⊢
  rcases hav : (atrStep c.prev_close c.prev_atr c.tr_buffer bar).2.2 with _ | atr
  · simp
  · rw [hav] at h
    simp only at h
    split at h
    · next hl => simp [hl]
    · next hl => simp at h

theorem coreStep_closes (c : TwinCore) (bar : Bar) :
    (coreStep c bar).1.closes = dequeAppend c.closes bar.close := by
  simp only [coreStep]
  rcases hav : (atrStep c.prev_close c.prev_atr c.tr_buffer bar).2.2 with _ | atr
  · simp
  · simp only
    split <;> simp

theorem dequeAppend_length_le {α : Type} (l : List α) (x : α) :
    (dequeAppend l x).length ≤ l.length + 1 := by
  simp only [dequeAppend]
  split
  · simp
  · simp [List.length_tail]

theorem on_bar_close_early (s : TwinState) (bar : Bar)
    (h : (coreStep s.core bar).2 = none) :
    on_bar_close s bar = ({ s with core := (coreStep s.core bar).1 }, none) := by
  simp only [on_bar_close]
  rcases hcs : coreStep s.core bar with ⟨c2, info⟩
  rw [hcs] at h
  simp only at h
  subst h
  rfl

theorem on_bar_close_of_info (s : TwinState) (bar : Bar) (c2 : TwinCore)
    (info : CoreInfo) (h : coreStep s.core bar = (c2, some info)) :
    on_bar_close s bar =
      ({ s with
         core := c2,
         used_levels := (triggerEval (takingTrades s c2 bar) s.used_levels info.atr bar
            info.active_high info.active_low).2 },
       (triggerEval (takingTrades s c2 bar) s.used_levels info.atr bar
          info.active_high info.active_low).1) := by
  simp only [on_bar_close, h]

theorem on_bar_close_core (s : TwinState) (bar : Bar) :
    (on_bar_close s bar).1.core = (coreStep s.core bar).1 := by
  simp only [on_bar_close]
  rcases hcs : coreStep s.core bar with ⟨c2, info⟩
  cases info <;> rfl

theorem stepTwin_closes_le (s : TwinState) (bar : Bar) :
    (stepTwin s bar).core.closes.length ≤ s.core.closes.length + 1 := by
  have h1 : (stepTwin s bar).core.closes = dequeAppend s.core.closes bar.close := by
    rw [stepTwin, on_bar_close_core, coreStep_closes]
  rw [h1]
  exact dequeAppend_length_le _ _

theorem twinSignals_warmup (bars : List Bar) :
    ∀ s : TwinState, s.core.closes.length + bars.length ≤ 19 →
      twinSignals s bars = List.replicate bars.length none := by
  induction bars with
  | nil => intro s _; rfl
  | cons bar rest ih =>
    intro s hlen
    have hlt : (dequeAppend s.core.closes bar.close).length < 20 := by
      have := dequeAppend_length_le s.core.closes bar.close
      simp only [List.length_cons] at hlen
      omega
    have hnone : (coreStep s.core bar).2 = none :=
      (coreStep_none_iff s.core bar).mpr (Or.inl hlt)
    have hear := on_bar_close_early s bar hnone
    simp only [twinSignals, hear, List.length_cons, List.replicate_succ]
    congr 1
    apply ih
    simp only [coreStep_closes]
    have hle := dequeAppend_length_le s.core.closes bar.close
    simp only [List.length_cons] at hlen
    omega

/-! ### C10: warm-up early return is a pure frame update -/

/-- C10.  When `on_bar_close` returns early because fewer than 20 bars are
buffered or the smoothed true-range average is still undefined (the two
conditions are characterized exactly), all structure state (provisional and
confirmed pivots), the expansion end index, the last-loss time and the used
set are unchanged, the bar index advances by one, and no signal is emitted. -/
theorem C10_warmup_frame (s : TwinState) (bar : Bar) :
    ((coreStep s.core bar).2 = none ↔
      (dequeAppend s.core.closes bar.close).length < 20 ∨
        (s.core.prev_atr = none ∧ s.core.tr_buffer.length ≠ 13)) ∧
    ((coreStep s.core bar).2 = none →
      (on_bar_close s bar).1.core.prov_maj_high = s.core.prov_maj_high ∧
      (on_bar_close s bar).1.core.conf_maj_high = s.core.conf_maj_high ∧
      (on_bar_close s bar).1.core.prov_maj_low = s.core.prov_maj_low ∧
      (on_bar_close s bar).1.core.conf_maj_low = s.core.conf_maj_low ∧
      (on_bar_close s bar).1.core.expansion_end_idx = s.core.expansion_end_idx ∧
      (on_bar_close s bar).1.last_loss_time = s.last_loss_time ∧
      (on_bar_close s bar).1.used_levels = s.used_levels ∧
      (on_bar_close s bar).1.core.bar_index = s.core.bar_index + 1 ∧
      (on_bar_close s bar).2 = none) := by
  refine ⟨coreStep_none_iff s.core bar, fun h => ?_⟩
  have hear := on_bar_close_early s bar h
  have hfr := coreStep_early_frame s.core bar h
  refine ⟨?_, ?_, ?_, ?_, ?_, ?_, ?_, ?_, ?_⟩
  · rw [on_bar_close_core]; exact hfr.1
  · rw [on_bar_close_core]; exact hfr.2.1
  · rw [on_bar_close_core]; exact hfr.2.2.1
  · rw [on_bar_close_core]; exact hfr.2.2.2.1
  · rw [on_bar_close_core]; exact hfr.2.2.2.2.1
  · rw [hear]
  · rw [hear]
  · rw [on_bar_close_core]; exact hfr.2.2.2.2.2
  · rw [hear]

/-- Witness for C10 at the initial twin state and the first scenario bar. -/
theorem C10_warmup_frame_witness :
    (on_bar_close (init_twin false false false) (mkBar 54000000 (201/2) 101 100 (201/2) 100)).2
      = none :=
  ((C10_warmup_frame (init_twin false false false)
      (mkBar 54000000 (201/2) 101 100 (201/2) 100)).2 (by decide)).2.2.2.2.2.2.2.2

/-! ### C9: warm-up suppression -/

/-- C9.  `on_bar_close` emits no signal while fewer than 20 bars are buffered
or the smoothed true-range average is undefined; consequently a run over any
feed of exactly 13 bars emits no signal at all. -/
theorem C9_warmup_suppression :
    (∀ (s : TwinState) (bar : Bar),
      (dequeAppend s.core.closes bar.close).length < 20 ∨
        (s.core.prev_atr = none ∧ s.core.tr_buffer.length ≠ 13) →
      (on_bar_close s bar).2 = none) ∧
    (∀ (r c u : Bool) (bars : List Bar), bars.length = 13 →
      runTwinSignals r c u bars = List.replicate 13 none) := by
  constructor
  · intro s bar h
    have hnone : (coreStep s.core bar).2 = none :=
      (coreStep_none_iff s.core bar).mpr h
    rw [on_bar_close_early s bar hnone]
  · intro r c u bars h
    have := twinSignals_warmup bars (init_twin r c u) (by simp [init_twin, h])
    rw [runTwinSignals, this, h]

/-- Witness for C9: the first 13 scenario bars produce no signals. -/
theorem C9_warmup_suppression_witness :
    runTwinSignals false false false (masterBars.take 13) = List.replicate 13 none :=
  C9_warmup_suppression.2 false false false (masterBars.take 13) (by decide)

/-! ### C6: pivot lifecycle -/

/-- The candidate `(price, origin index)` pair at relative position `-6`. -/
def candPair (vals : List ℚ) (idxs : List Int) : ℚ × Int :=
  (vals.getD (vals.length - 6) 0, idxs.getD (idxs.length - 6) 0)

/-- The provisional high after this bar's arming and invalidation steps. -/
def armedHigh (c : TwinCore) (bar : Bar) : Option (ℚ × Int) :=
  invalidateHigh bar.high (armLevel (pivotHighOk (dequeAppend c.highs bar.high))
    (candPair (dequeAppend c.highs bar.high) (dequeAppend c.indices (c.bar_index + 1)))
    c.prov_maj_high)

/-- The provisional low after this bar's arming and invalidation steps. -/
def armedLow (c : TwinCore) (bar : Bar) : Option (ℚ × Int) :=
  invalidateLow bar.low (armLevel (pivotLowOk (dequeAppend c.lows bar.low))
    (candPair (dequeAppend c.lows bar.low) (dequeAppend c.indices (c.bar_index + 1)))
    c.prov_maj_low)

/-- The `(confirmed, provisional)` high pair after the full pivot pipeline. -/
def highPipeline (c : TwinCore) (bar : Bar) : Option (ℚ × Int) × Option (ℚ × Int) :=
  promote (c.bar_index + 1) (armedHigh c bar) c.conf_maj_high

/-- The `(confirmed, provisional)` low pair after the full pivot pipeline. -/
def lowPipeline (c : TwinCore) (bar : Bar) : Option (ℚ × Int) × Option (ℚ × Int) :=
  promote (c.bar_index + 1) (armedLow c bar) c.conf_maj_low

theorem coreStep_struct (c : TwinCore) (bar : Bar)
    (h : (coreStep c bar).2.isSome = true) :
    (coreStep c bar).1.conf_maj_high = (highPipeline c bar).1 ∧
    (coreStep c bar).1.prov_maj_high = (highPipeline c bar).2 ∧
    (coreStep c bar).1.conf_maj_low = (lowPipeline c bar).1 ∧
    (coreStep c bar).1.prov_maj_low = (lowPipeline c bar).2 ∧
    (coreStep c bar).1.bar_index = c.bar_index + 1 := by
  simp only [coreStep] at h ⊢
  rcases hav : (atrStep c.prev_close c.prev_atr c.tr_buffer bar).2.2 with _ | atr
  · rw [hav] at h
    simp at h
  · rw [hav] at h
    simp only at h ⊢
    split at h
    · simp at h
    · next hl =>
      simp only [if_neg hl]
      refine ⟨?_, ?_, ?_, ?_, ?_⟩ <;>
        simp [highPipeline, lowPipeline, armedHigh, armedLow, candPair]

theorem armLevel_of_some (ok : Bool) (cand : ℚ × Int) (x : ℚ × Int) :
    armLevel ok cand (some x) = some x := by
  simp [armLevel]

theorem invalidateHigh_some (barHigh : ℚ) (x : Option (ℚ × Int)) (pq : ℚ × Int)
    (h : invalidateHigh barHigh x = some pq) : ¬ pq.1 < barHigh := by
  cases x with
  | none => simp [invalidateHigh] at h
  | some y =>
    simp only [invalidateHigh] at h
    split at h
    · simp at h
    · next hlt =>
      cases h
      exact hlt

theorem invalidateLow_some (barLow : ℚ) (x : Option (ℚ × Int)) (pq : ℚ × Int)
    (h : invalidateLow barLow x = some pq) : ¬ barLow < pq.1 := by
  cases x with
  | none => simp [invalidateLow] at h
  | some y =>
    simp only [invalidateLow] at h
    split at h
    · simp at h
    · next hlt =>
      cases h
      exact hlt

theorem triggerEval_short_fire (taking : Bool) (used : Finset Int) (atr : ℚ)
    (bar : Bar) (al : Option (ℚ × Int)) (p : ℚ) (i : Int)
    (ht : taking = true) (hu : i ∉ used) (hh : p < bar.high)
    (hc : bar.close ≤ p + atr * (5/100)) :
    triggerEval taking used atr bar (some (p, i)) al =
      (some ⟨Dir.SHORT, p + atr * (25/100), atr, i⟩, insert i used) := by
  simp [triggerEval, ht, hu, hh, hc]

theorem triggerEval_long_fire (taking : Bool) (used : Finset Int) (atr : ℚ)
    (bar : Bar) (ah : Option (ℚ × Int)) (p : ℚ) (i : Int)
    (ht : taking = true) (hu : i ∉ used) (hl : bar.low < p)
    (hc : p - atr * (5/100) ≤ bar.close)
    (hns : ∀ q j, ah = some (q, j) →
      ¬ (j ∉ used ∧ q < bar.high ∧ bar.close ≤ q + atr * (5/100))) :
    triggerEval taking used atr bar ah (some (p, i)) =
      (some ⟨Dir.LONG, p - atr * (25/100), atr, i⟩, insert i used) := by
  rcases ah with _ | ⟨q, j⟩
  · simp [triggerEval, ht, hu, hl, hc]
  · have hq := hns q j rfl
    simp only [triggerEval]
    rw [if_neg (by tauto)]
    simp [ht, hu, hl, hc]

theorem triggerEval_spec (taking : Bool) (used : Finset Int) (atr : ℚ)
    (bar : Bar) (ah al : Option (ℚ × Int)) :
    (∃ p i, ah = some (p, i) ∧ taking = true ∧ i ∉ used ∧ p < bar.high ∧
      bar.close ≤ p + atr * (5/100) ∧
      triggerEval taking used atr bar ah al =
        (some ⟨Dir.SHORT, p + atr * (25/100), atr, i⟩, insert i used)) ∨
    (∃ p i, al = some (p, i) ∧ taking = true ∧ i ∉ used ∧ bar.low < p ∧
      p - atr * (5/100) ≤ bar.close ∧
      (∀ q j, ah = some (q, j) → ¬ (taking = true ∧ j ∉ used ∧ q < bar.high ∧
        bar.close ≤ q + atr * (5/100))) ∧
      triggerEval taking used atr bar ah al =
        (some ⟨Dir.LONG, p - atr * (25/100), atr, i⟩, insert i used)) ∨
    (triggerEval taking used atr bar ah al = (none, used)) := by
  rcases ah with _ | ⟨q, j⟩
  · rcases al with _ | ⟨p, i⟩
    · right; right; rfl
    · by_cases hcl : taking = true ∧ i ∉ used ∧ bar.low < p ∧
        p - atr * (5/100) ≤ bar.close
      · right; left
        refine ⟨p, i, rfl, hcl.1, hcl.2.1, hcl.2.2.1, hcl.2.2.2, ?_, ?_⟩
        · intro q j hqj
          simp at hqj
        · exact triggerEval_long_fire taking used atr bar none p i hcl.1 hcl.2.1
            hcl.2.2.1 hcl.2.2.2 (fun q j hqj => by simp at hqj)
      · right; right
        simp only [triggerEval]
        rw [if_neg hcl]
  · rcases al with _ | ⟨p, i⟩
    · by_cases hcs : taking = true ∧ j ∉ used ∧ q < bar.high ∧
        bar.close ≤ q + atr * (5/100)
      · left
        exact ⟨q, j, rfl, hcs.1, hcs.2.1, hcs.2.2.1, hcs.2.2.2,
          triggerEval_short_fire taking used atr bar none q j hcs.1 hcs.2.1
            hcs.2.2.1 hcs.2.2.2⟩
      · right; right
        simp only [triggerEval]
        rw [if_neg hcs]
    · by_cases hcs : taking = true ∧ j ∉ used ∧ q < bar.high ∧
        bar.close ≤ q + atr * (5/100)
      · left
        exact ⟨q, j, rfl, hcs.1, hcs.2.1, hcs.2.2.1, hcs.2.2.2,
          triggerEval_short_fire taking used atr bar (some (p, i)) q j hcs.1
            hcs.2.1 hcs.2.2.1 hcs.2.2.2⟩
      · by_cases hcl : taking = true ∧ i ∉ used ∧ bar.low < p ∧
          p - atr * (5/100) ≤ bar.close
        · right; left
          refine ⟨p, i, rfl, hcl.1, hcl.2.1, hcl.2.2.1, hcl.2.2.2, ?_, ?_⟩
          · intro q' j' hqj
            cases hqj
            exact hcs
          · exact triggerEval_long_fire taking used atr bar (some (q, j)) p i
              hcl.1 hcl.2.1 hcl.2.2.1 hcl.2.2.2
              (fun q' j' hqj => by cases hqj; tauto)
        · right; right
          simp only [triggerEval]
          rw [if_neg hcs, if_neg hcl]

theorem triggerEval_some (taking : Bool) (used : Finset Int) (atr : ℚ)
    (bar : Bar) (ah al : Option (ℚ × Int)) (sig : Signal)
    (h : (triggerEval taking used atr bar ah al).1 = some sig) :
    taking = true ∧ sig.lvl_id ∉ used ∧
    (triggerEval taking used atr bar ah al).2 = insert sig.lvl_id used := by
  rcases triggerEval_spec taking used atr bar ah al with
    ⟨p, i, _, ht, hu, _, _, heq⟩ | ⟨p, i, _, ht, hu, _, _, _, heq⟩ | heq <;>
    rw [heq] at h <;> rw [heq]
  · simp only [Option.some.injEq] at h
    rw [← h]
    exact ⟨ht, hu, rfl⟩
  · simp only [Option.some.injEq] at h
    rw [← h]
    exact ⟨ht, hu, rfl⟩
  · simp at h

theorem triggerEval_none_snd (taking : Bool) (used : Finset Int) (atr : ℚ)
    (bar : Bar) (ah al : Option (ℚ × Int))
    (h : (triggerEval taking used atr bar ah al).1 = none) :
    (triggerEval taking used atr bar ah al).2 = used := by
  rcases triggerEval_spec taking used atr bar ah al with
    ⟨p, i, _, _, _, _, _, heq⟩ | ⟨p, i, _, _, _, _, _, _, heq⟩ | heq <;>
    rw [heq] at h ⊢ <;> simp_all

theorem triggerEval_short_inv (taking : Bool) (used : Finset Int) (atr : ℚ)
    (bar : Bar) (ah al : Option (ℚ × Int)) (sig : Signal)
    (h : (triggerEval taking used atr bar ah al).1 = some sig)
    (hd : sig.signal = Dir.SHORT) :
    ∃ p i, ah = some (p, i) ∧ i ∉ used ∧ p < bar.high ∧
      bar.close ≤ p + atr * (5/100) ∧
      sig = ⟨Dir.SHORT, p + atr * (25/100), atr, i⟩ := by
  rcases triggerEval_spec taking used atr bar ah al with
    ⟨p, i, hah, ht, hu, hh, hc, heq⟩ | ⟨p, i, _, _, _, _, _, _, heq⟩ | heq <;>
    rw [heq] at h
  · simp only [Option.some.injEq] at h
    exact ⟨p, i, hah, hu, hh, hc, h.symm⟩
  · simp only [Option.some.injEq] at h
    rw [← h] at hd
    simp at hd
  · simp at h

theorem triggerEval_long_inv (taking : Bool) (used : Finset Int) (atr : ℚ)
    (bar : Bar) (ah al : Option (ℚ × Int)) (sig : Signal)
    (h : (triggerEval taking used atr bar ah al).1 = some sig)
    (hd : sig.signal = Dir.LONG) :
    ∃ p i, al = some (p, i) ∧ i ∉ used ∧ bar.low < p ∧
      p - atr * (5/100) ≤ bar.close ∧
      sig = ⟨Dir.LONG, p - atr * (25/100), atr, i⟩ ∧
      (∀ q j, ah = some (q, j) → ¬ (taking = true ∧ j ∉ used ∧ q < bar.high ∧
        bar.close ≤ q + atr * (5/100))) := by
  rcases triggerEval_spec taking used atr bar ah al with
    ⟨p, i, _, _, _, _, _, heq⟩ | ⟨p, i, hal, ht, hu, hl, hc, hns, heq⟩ | heq <;>
    rw [heq] at h
  · simp only [Option.some.injEq] at h
    rw [← h] at hd
    simp at hd
  · simp only [Option.some.injEq] at h
    exact ⟨p, i, hal, hu, hl, hc, h.symm, hns⟩
  · simp at h

/-- C6.  Pivot lifecycle: on a bar with indicators available, (1) a
provisional high strictly exceeded by the bar's high is discarded with the
confirmed high untouched (invalidation runs before promotion, so no promotion
of it can happen), (2) symmetrically for a provisional low strictly undercut
by the bar's low, and (3)/(4) a confirmed level is never removed or altered by
price action: it changes only by promotion of a surviving provisional level
whose age has reached 15 bars. -/
theorem C6_pivot_lifecycle (s : TwinState) (bar : Bar)
    (h : (coreStep s.core bar).2.isSome = true) :
    (∀ p i, s.core.prov_maj_high = some (p, i) → p < bar.high →
      (on_bar_close s bar).1.core.prov_maj_high = none ∧
      (on_bar_close s bar).1.core.conf_maj_high = s.core.conf_maj_high) ∧
    (∀ p i, s.core.prov_maj_low = some (p, i) → bar.low < p →
      (on_bar_close s bar).1.core.prov_maj_low = none ∧
      (on_bar_close s bar).1.core.conf_maj_low = s.core.conf_maj_low) ∧
    ((on_bar_close s bar).1.core.conf_maj_high = s.core.conf_maj_high ∨
      ∃ pq, armedHigh s.core bar = some pq ∧ ¬ pq.1 < bar.high ∧
        15 ≤ (s.core.bar_index + 1) - pq.2 ∧
        (on_bar_close s bar).1.core.conf_maj_high = some pq ∧
        (on_bar_close s bar).1.core.prov_maj_high = none) ∧
    ((on_bar_close s bar).1.core.conf_maj_low = s.core.conf_maj_low ∨
      ∃ pq, armedLow s.core bar = some pq ∧ ¬ bar.low < pq.1 ∧
        15 ≤ (s.core.bar_index + 1) - pq.2 ∧
        (on_bar_close s bar).1.core.conf_maj_low = some pq ∧
        (on_bar_close s bar).1.core.prov_maj_low = none) := by
  have hs := coreStep_struct s.core bar h
  rw [on_bar_close_core] at *
  refine ⟨?_, ?_, ?_, ?_⟩
  · intro p i hpi hlt
    have harm : armedHigh s.core bar = none := by
      rw [armedHigh, hpi, armLevel_of_some]
      simp [invalidateHigh, hlt]
    rw [hs.2.1, hs.1, highPipeline, harm]
    exact ⟨rfl, rfl⟩
  · intro p i hpi hlt
    have harm : armedLow s.core bar = none := by
      rw [armedLow, hpi, armLevel_of_some]
      simp [invalidateLow, hlt]
    rw [hs.2.2.2.1, hs.2.2.1, lowPipeline, harm]
    exact ⟨rfl, rfl⟩
  · rw [hs.1, hs.2.1, highPipeline]
    rcases harm : armedHigh s.core bar with _ | pq
    · left; rfl
    · simp only [promote]
      split
    -- aged: promoted
      · next hage =>
        right
        exact ⟨pq, rfl, invalidateHigh_some bar.high _ pq harm, hage, rfl, rfl⟩
      · left; rfl
  · rw [hs.2.2.1, hs.2.2.2.1, lowPipeline]
    rcases harm : armedLow s.core bar with _ | pq
    · left; rfl
    · simp only [promote]
      split
      · next hage =>
        right
        exact ⟨pq, rfl, invalidateLow_some bar.low _ pq harm, hage, rfl, rfl⟩
      · left; rfl

/-! ### C4: the sweep-and-reclaim trigger -/

/-- C4.  On a bar with indicators available and trading permitted: a SHORT
signal with stop `level + 25% ATR` is emitted exactly when the active high's
id is unused, the bar's high strictly exceeds the level and the close is back
within `5% ATR` above the level (the tolerance band), marking the id used;
symmetrically a LONG at the active low with stop `level - 25% ATR` (evaluated
only when the high side does not fire, per the source's priority). -/
theorem C4_sweep_reclaim_trigger (s : TwinState) (bar : Bar) (info : CoreInfo)
    (h2 : (coreStep s.core bar).2 = some info)
    (htk : takingTrades s (coreStep s.core bar).1 bar = true) :
    (∀ p i, info.active_high = some (p, i) → i ∉ s.used_levels → p < bar.high →
      bar.close ≤ p + info.atr * (5/100) →
      (on_bar_close s bar).2 = some ⟨Dir.SHORT, p + info.atr * (25/100), info.atr, i⟩ ∧
      i ∈ (on_bar_close s bar).1.used_levels) ∧
    (∀ sig, (on_bar_close s bar).2 = some sig → sig.signal = Dir.SHORT →
      ∃ p i, info.active_high = some (p, i) ∧ i ∉ s.used_levels ∧ p < bar.high ∧
        bar.close ≤ p + info.atr * (5/100) ∧
        sig = ⟨Dir.SHORT, p + info.atr * (25/100), info.atr, i⟩) ∧
    (∀ p i, info.active_low = some (p, i) → i ∉ s.used_levels → bar.low < p →
      p - info.atr * (5/100) ≤ bar.close →
      (∀ q j, info.active_high = some (q, j) →
        ¬ (j ∉ s.used_levels ∧ q < bar.high ∧ bar.close ≤ q + info.atr * (5/100))) →
      (on_bar_close s bar).2 = some ⟨Dir.LONG, p - info.atr * (25/100), info.atr, i⟩ ∧
      i ∈ (on_bar_close s bar).1.used_levels) ∧
    (∀ sig, (on_bar_close s bar).2 = some sig → sig.signal = Dir.LONG →
      ∃ p i, info.active_low = some (p, i) ∧ i ∉ s.used_levels ∧ bar.low < p ∧
        p - info.atr * (5/100) ≤ bar.close ∧
        sig = ⟨Dir.LONG, p - info.atr * (25/100), info.atr, i⟩) := by
  have hcs : coreStep s.core bar = ((coreStep s.core bar).1, some info) := by
    rw [← h2]
  have hob := on_bar_close_of_info s bar (coreStep s.core bar).1 info hcs
  rw [htk] at hob
  refine ⟨?_, ?_, ?_, ?_⟩
  · intro p i hah hu hh hc
    have hfire := triggerEval_short_fire true s.used_levels info.atr bar
      info.active_low p i rfl hu hh hc
    rw [hah] at hob
    rw [hfire] at hob
    rw [hob]
    exact ⟨rfl, Finset.mem_insert_self i s.used_levels⟩
  · intro sig hsig hd
    rw [hob] at hsig
    simp only at hsig
    exact triggerEval_short_inv true s.used_levels info.atr bar
      info.active_high info.active_low sig hsig hd
  · intro p i hal hu hl hc hns
    have hfire := triggerEval_long_fire true s.used_levels info.atr bar
      info.active_high p i rfl hu hl hc
      (fun q j hqj => by
        have := hns q j hqj
        tauto)
    rw [hal] at hob
    rw [hfire] at hob
    rw [hob]
    exact ⟨rfl, Finset.mem_insert_self i s.used_levels⟩
  · intro sig hsig hd
    rw [hob] at hsig
    simp only at hsig
    obtain ⟨p, i, hal, hu, hl, hc, hs, _⟩ := triggerEval_long_inv true
      s.used_levels info.atr bar info.active_high info.active_low sig hsig hd
    exact ⟨p, i, hal, hu, hl, hc, hs⟩

/-- The indicator/structure outputs of the sweep bar on `state37`. -/
def info37 : CoreInfo := ⟨31/28, 100, none, some (95, 21)⟩

/-- Witness for C4: the scenario sweep bar fires the LONG trigger at the
confirmed low `(95, 21)` with stop `95 - 25%` of the ATR `31/28`. -/
theorem C4_sweep_reclaim_trigger_witness :
    (on_bar_close state37 sweepBar).2 =
      some ⟨Dir.LONG, 95 - (31/28 : ℚ) * (25/100), 31/28, 21⟩ ∧
    (21 : Int) ∈ (on_bar_close state37 sweepBar).1.used_levels :=
  (C4_sweep_reclaim_trigger state37 sweepBar info37 (by decide)
      (by decide)).2.2.1 95 21 (by decide) (by decide) (by decide) (by decide)
    (fun q j hqj => by simp [info37] at hqj)

/-! ### C1: gate togglability (corrected) -/

/-- Counterexample to C1.  In sampling mode (all three flags off) the session
gate still suppresses: the scenario sweep bar fires a LONG signal in session,
but the identical OHLCV bar with an out-of-session timestamp (16:40 ET)
produces no signal from the same state. -/
theorem C1_gate_toggle_counterexample :
    state37.use_regime_gate = false ∧ state37.use_cooldown = false ∧
    state37.use_usage_gate = false ∧
    sweepBarOOS.open_ = sweepBar.open_ ∧ sweepBarOOS.high = sweepBar.high ∧
    sweepBarOOS.low = sweepBar.low ∧ sweepBarOOS.close = sweepBar.close ∧
    sweepBarOOS.volume = sweepBar.volume ∧
    inSession sweepBar.time = true ∧ inSession sweepBarOOS.time = false ∧
    (on_bar_close state37 sweepBar).2 = some ⟨Dir.LONG, 10609/112, 31/28, 21⟩ ∧
    (on_bar_close state37 sweepBarOOS).2 = none := by
  decide

/-- C1 as amended.  (1) With the regime and cooldown flags off, trading
permission reduces to the session test alone, so those two gates never
withhold a signal; (2) `use_usage_gate` has no effect on the behaviour of
`on_bar_close` (the flag is dead); (3) the one-shot level-usage gate always
applies: every emitted signal consumes a previously unused level id.  The
session gate has no toggle and applies in every mode. -/
theorem C1_gate_toggle_amended :
    (∀ (s : TwinState) (c2 : TwinCore) (bar : Bar),
      s.use_regime_gate = false → s.use_cooldown = false →
      takingTrades s c2 bar = inSession bar.time) ∧
    (∀ (s : TwinState) (bar : Bar) (u' : Bool),
      (on_bar_close { s with use_usage_gate := u' } bar).2 =
        (on_bar_close s bar).2 ∧
      (on_bar_close { s with use_usage_gate := u' } bar).1 =
        { (on_bar_close s bar).1 with use_usage_gate := u' }) ∧
    (∀ (s : TwinState) (bar : Bar) (sig : Signal),
      (on_bar_close s bar).2 = some sig →
      sig.lvl_id ∉ s.used_levels ∧
      (on_bar_close s bar).1.used_levels = insert sig.lvl_id s.used_levels) := by
  refine ⟨?_, ?_, ?_⟩
  · intro s c2 bar h1 h2
    simp [takingTrades, isGatedByRegime, isCooldownActive, h1, h2]
  · intro s bar u'
    rcases hcs : coreStep s.core bar with ⟨c2, info⟩
    have hcs' : coreStep ({ s with use_usage_gate := u' } : TwinState).core bar
        = (c2, info) := hcs
    cases info with
    | none =>
      have e1 := on_bar_close_early s bar (by rw [hcs])
      have e2 := on_bar_close_early { s with use_usage_gate := u' } bar
        (by rw [hcs'])
      rw [e1, e2]
      exact ⟨rfl, rfl⟩
    | some i =>
      have e1 := on_bar_close_of_info s bar c2 i hcs
      have e2 := on_bar_close_of_info { s with use_usage_gate := u' } bar c2 i hcs'
      rw [e1, e2]
      exact ⟨rfl, rfl⟩
  · intro s bar sig hsig
    rcases hcs : coreStep s.core bar with ⟨c2, info⟩
    cases info with
    | none =>
      rw [on_bar_close_early s bar (by rw [hcs])] at hsig
      simp at hsig
    | some i =>
      have hob := on_bar_close_of_info s bar c2 i hcs
      rw [hob] at hsig
      simp only at hsig
      have := triggerEval_some (takingTrades s c2 bar) s.used_levels i.atr bar
        i.active_high i.active_low sig hsig
      rw [hob]
      exact ⟨this.2.1, this.2.2⟩

/-- Witness for C1 (amended): the scenario LONG signal consumes the unused
level id 21. -/
theorem C1_gate_toggle_amended_witness :
    (21 : Int) ∉ state37.used_levels ∧
    (on_bar_close state37 sweepBar).1.used_levels =
      insert 21 state37.used_levels :=
  C1_gate_toggle_amended.2.2 state37 sweepBar ⟨Dir.LONG, 10609/112, 31/28, 21⟩
    (by decide)

/-- The twin state (all flags off) after the first 27 scenario bars: the
provisional low `(95, 21)` is armed and no low is confirmed yet. -/
def state27 : TwinState := runTwinState false false false (masterBars.take 27)

/-- A bar whose low strictly undercuts the armed provisional low of
`state27`. -/
def bar27x : Bar := mkBar 55620000 95 95 94 (189/2) 100

/-- Witness for C6: invalidating the provisional low `(95, 21)` of the
scenario state by a bar with low `94` discards it and leaves the (empty)
confirmed low untouched. -/
theorem C6_pivot_lifecycle_witness :
    (on_bar_close state27 bar27x).1.core.prov_maj_low = none ∧
    (on_bar_close state27 bar27x).1.core.conf_maj_low = state27.core.conf_maj_low :=
  (C6_pivot_lifecycle state27 bar27x (by decide)).2.1 95 21 (by decide) (by decide)

/-! ### C7: stop-before-target tie-break -/

/-- C7.  In both the exit phase and the same-bar re-check, a bar whose
`[low, high]` range contains both the open position's stop and target closes
the position at the stop with a stop reason, never a target reason. -/
theorem C7_stop_before_target (st : SimState) (bar : Bar) :
    (st.current_pos = 1 → bar.low ≤ st.entry_sl → st.entry_sl ≤ bar.high →
      bar.low ≤ st.entry_tp → st.entry_tp ≤ bar.high →
      (exitPhase st bar).closed_trades = st.closed_trades ++
        [(⟨bar.time, (st.entry_sl - st.entry_price) * 2, Reason.slHit⟩, true)]) ∧
    (st.current_pos = -1 → bar.low ≤ st.entry_sl → st.entry_sl ≤ bar.high →
      bar.low ≤ st.entry_tp → st.entry_tp ≤ bar.high →
      (exitPhase st bar).closed_trades = st.closed_trades ++
        [(⟨bar.time, (st.entry_price - st.entry_sl) * 2, Reason.slHit⟩, true)]) ∧
    (∀ sig, st.pending_signal = some sig → st.current_pos = 0 →
      bar.low ≤ sig.sl → sig.sl ≤ bar.high →
      bar.low ≤ fillTp sig bar → fillTp sig bar ≤ bar.high →
      (entryPhase st bar).closed_trades = st.closed_trades ++
        [(⟨bar.time,
            (if sig.signal = Dir.LONG then (sig.sl - bar.open_) * 2
             else (bar.open_ - sig.sl) * 2), Reason.slHitSameBar⟩, true)]) := by
  refine ⟨?_, ?_, ?_⟩
  · intro hpos h1 h2 h3 h4
    simp [exitPhase, hpos, h1]
  · intro hpos h1 h2 h3 h4
    simp [exitPhase, hpos, h2]
  · intro sig hps hc0 h1 h2 h3 h4
    cases hdir : sig.signal with
    | LONG => simp [entryPhase, sameBarCheck, hps, hc0, dirInt, hdir, h1]
    | SHORT => simp [entryPhase, sameBarCheck, hps, hc0, dirInt, hdir, h2]

/-- A hand-built open LONG position whose stop and target both sit inside the
range of `c7bar`. -/
def c7exitState : SimState :=
  { twin := init_twin false false false, closed_trades := [], current_pos := 1,
    entry_price := 100, entry_sl := 99, entry_tp := 102, pending_signal := none,
    fired_log := [] }

/-- A pending LONG signal about to fill while flat, with stop and computed
target both inside the range of `c7bar`. -/
def c7sig : Signal := ⟨Dir.LONG, 99, 1, 5⟩

/-- The flat state holding the pending signal `c7sig`. -/
def c7entryState : SimState :=
  { twin := init_twin false false false, closed_trades := [], current_pos := 0,
    entry_price := 0, entry_sl := 0, entry_tp := 0, pending_signal := some c7sig,
    fired_log := [] }

/-- A bar whose range `[98, 103]` contains stop 99 and targets 102 / 102.5. -/
def c7bar : Bar := mkBar 54000000 100 103 98 101 100

/-- Witness for C7 at concrete states: both the exit phase and the same-bar
check close at the stop. -/
theorem C7_stop_before_target_witness :
    ((exitPhase c7exitState c7bar).closed_trades = c7exitState.closed_trades ++
      [(⟨c7bar.time, (c7exitState.entry_sl - c7exitState.entry_price) * 2,
          Reason.slHit⟩, true)]) ∧
    ((entryPhase c7entryState c7bar).closed_trades = c7entryState.closed_trades ++
      [(⟨c7bar.time,
          (if c7sig.signal = Dir.LONG then (c7sig.sl - c7bar.open_) * 2
           else (c7bar.open_ - c7sig.sl) * 2), Reason.slHitSameBar⟩, true)]) :=
  ⟨(C7_stop_before_target c7exitState c7bar).1 (by decide) (by decide)
      (by decide) (by decide) (by decide),
   (C7_stop_before_target c7entryState c7bar).2.2 c7sig (by decide) (by decide)
      (by decide) (by decide) (by decide) (by decide)⟩

/-! ### C8: reversal accounting -/

theorem sameBarCheck_spec (st2 : SimState) (bar : Bar) :
    ∃ rest : List (Trade × Bool),
      (sameBarCheck st2 bar).closed_trades = st2.closed_trades ++ rest ∧
      rest.length ≤ 1 ∧
      (∀ tb ∈ rest, tb.1.reason = Reason.slHitSameBar ∨
        tb.1.reason = Reason.tpHitSameBar) ∧
      (rest = [] → sameBarCheck st2 bar = st2) := by
  unfold sameBarCheck
  split_ifs with ha hb hc hd he hf
  · exact ⟨[(⟨bar.time, (st2.entry_sl - st2.entry_price) * 2,
      Reason.slHitSameBar⟩, true)], rfl, by simp, by simp, by simp⟩
  · exact ⟨[(⟨bar.time, (st2.entry_tp - st2.entry_price) * 2,
      Reason.tpHitSameBar⟩, false)], rfl, by simp, by simp, by simp⟩
  · exact ⟨[], by simp, by simp, by simp, fun _ => rfl⟩
  · exact ⟨[(⟨bar.time, (st2.entry_price - st2.entry_sl) * 2,
      Reason.slHitSameBar⟩, true)], rfl, by simp, by simp, by simp⟩
  · exact ⟨[(⟨bar.time, (st2.entry_price - st2.entry_tp) * 2,
      Reason.tpHitSameBar⟩, false)], rfl, by simp, by simp, by simp⟩
  · exact ⟨[], by simp, by simp, by simp, fun _ => rfl⟩
  · exact ⟨[], by simp, by simp, by simp, fun _ => rfl⟩

/-- C8.  When a pending signal fills while a position is still open, the old
position is synthetically closed at the fill price with reason `Reverse`
before any same-bar exit check; its PnL is
`(fill - old entry) * direction * 2`; the loss callback fires exactly when
that PnL is negative; and the step appends the reversal record first followed
by at most one same-bar close of the new position — if none, the new position
stays open with the documented entry, stop and target. -/
theorem C8_reversal_accounting (st : SimState) (bar : Bar) (sig : Signal)
    (hps : st.pending_signal = some sig)
    (hpos : st.current_pos = 1 ∨ st.current_pos = -1) :
    ∃ rest : List (Trade × Bool),
      (entryPhase st bar).closed_trades = st.closed_trades ++
        [(⟨bar.time, (bar.open_ - st.entry_price) * (st.current_pos : ℚ) * 2,
            Reason.reverse⟩,
          decide ((bar.open_ - st.entry_price) * (st.current_pos : ℚ) * 2 < 0))]
        ++ rest ∧
      rest.length ≤ 1 ∧
      (∀ tb ∈ rest, tb.1.reason = Reason.slHitSameBar ∨
        tb.1.reason = Reason.tpHitSameBar) ∧
      (rest = [] → (entryPhase st bar).current_pos = dirInt sig.signal ∧
        (entryPhase st bar).entry_price = bar.open_ ∧
        (entryPhase st bar).entry_sl = sig.sl ∧
        (entryPhase st bar).entry_tp = fillTp sig bar ∧
        (entryPhase st bar).pending_signal = none) := by
  have hne : st.current_pos ≠ 0 := by rcases hpos with h | h <;> rw [h] <;> decide
  have hpnl : (if st.current_pos = 1 then (bar.open_ - st.entry_price) * 2
      else (st.entry_price - bar.open_) * 2) =
      (bar.open_ - st.entry_price) * (st.current_pos : ℚ) * 2 := by
    rcases hpos with h | h <;> rw [h] <;> push_cast <;> ring_nf
  simp only [entryPhase, hps, if_pos hne, hpnl]
  obtain ⟨rest, hr1, hr2, hr3, hr4⟩ := sameBarCheck_spec
    { st with
      closed_trades := st.closed_trades ++
        [(⟨bar.time, (bar.open_ - st.entry_price) * (st.current_pos : ℚ) * 2,
            Reason.reverse⟩,
          decide ((bar.open_ - st.entry_price) * (st.current_pos : ℚ) * 2 < 0))],
      twin := if (bar.open_ - st.entry_price) * (st.current_pos : ℚ) * 2 < 0 then
          record_loss st.twin bar.time else st.twin,
      current_pos := dirInt sig.signal, entry_price := bar.open_,
      entry_sl := sig.sl, entry_tp := fillTp sig bar, pending_signal := none }
    bar
  refine ⟨rest, ?_, hr2, hr3, ?_⟩
  · rw [hr1]
  · intro hre
    have hsb := hr4 hre
    rw [hsb]
    exact ⟨rfl, rfl, rfl, rfl, rfl⟩

/-- A LONG position about to be reversed by a pending SHORT signal; the new
short position survives its fill bar. -/
def c8state : SimState :=
  { twin := init_twin false false false, closed_trades := [], current_pos := 1,
    entry_price := 100, entry_sl := 98, entry_tp := 104,
    pending_signal := some ⟨Dir.SHORT, 105, 1, 7⟩, fired_log := [] }

/-- The fill bar for the C8 witness (open 101, range `[99, 102]`). -/
def c8bar : Bar := mkBar 54000000 101 102 99 100 100

/-- Witness for C8: the reversal at fill price 101 of the long from 100 is
recorded with PnL `(101 - 100) * 1 * 2` and no loss callback. -/
theorem C8_reversal_accounting_witness :
    ∃ rest : List (Trade × Bool),
      (entryPhase c8state c8bar).closed_trades = c8state.closed_trades ++
        [(⟨c8bar.time,
            (c8bar.open_ - c8state.entry_price) * (c8state.current_pos : ℚ) * 2,
            Reason.reverse⟩,
          decide ((c8bar.open_ - c8state.entry_price) *
            (c8state.current_pos : ℚ) * 2 < 0))] ++ rest ∧
      rest.length ≤ 1 ∧
      (∀ tb ∈ rest, tb.1.reason = Reason.slHitSameBar ∨
        tb.1.reason = Reason.tpHitSameBar) ∧
      (rest = [] → (entryPhase c8state c8bar).current_pos =
          dirInt (⟨Dir.SHORT, 105, 1, 7⟩ : Signal).signal ∧
        (entryPhase c8state c8bar).entry_price = c8bar.open_ ∧
        (entryPhase c8state c8bar).entry_sl = (⟨Dir.SHORT, 105, 1, 7⟩ : Signal).sl ∧
        (entryPhase c8state c8bar).entry_tp = fillTp ⟨Dir.SHORT, 105, 1, 7⟩ c8bar ∧
        (entryPhase c8state c8bar).pending_signal = none) :=
  C8_reversal_accounting c8state c8bar ⟨Dir.SHORT, 105, 1, 7⟩ (by decide)
    (Or.inl (by decide))

/-! ### C2: when the cooldown is armed (corrected) -/

/-- Ghost-flag discipline of a closed trade: the loss callback fired at that
close exactly when the close was a stop exit (normal or same-bar) or a
reversal with negative PnL. -/
def lossFlagOk (tb : Trade × Bool) : Prop :=
  tb.2 = true ↔ (tb.1.reason = Reason.slHit ∨ tb.1.reason = Reason.slHitSameBar ∨
    (tb.1.reason = Reason.reverse ∧ tb.1.pnl < 0))

theorem exitPhase_trades_ok (st : SimState) (bar : Bar) :
    ∃ new, (exitPhase st bar).closed_trades = st.closed_trades ++ new ∧
      ∀ tb ∈ new, lossFlagOk tb := by
  unfold exitPhase
  split_ifs
  · exact ⟨[(⟨bar.time, (st.entry_sl - st.entry_price) * 2, Reason.slHit⟩, true)],
      rfl, by simp [lossFlagOk]⟩
  · exact ⟨[(⟨bar.time, (st.entry_tp - st.entry_price) * 2, Reason.tpHit⟩, false)],
      rfl, by simp [lossFlagOk]⟩
  · exact ⟨[], by simp, by simp⟩
  · exact ⟨[(⟨bar.time, (st.entry_price - st.entry_sl) * 2, Reason.slHit⟩, true)],
      rfl, by simp [lossFlagOk]⟩
  · exact ⟨[(⟨bar.time, (st.entry_price - st.entry_tp) * 2, Reason.tpHit⟩, false)],
      rfl, by simp [lossFlagOk]⟩
  · exact ⟨[], by simp, by simp⟩
  · exact ⟨[], by simp, by simp⟩

theorem sameBarCheck_trades_ok (st2 : SimState) (bar : Bar) :
    ∃ new, (sameBarCheck st2 bar).closed_trades = st2.closed_trades ++ new ∧
      ∀ tb ∈ new, lossFlagOk tb := by
  unfold sameBarCheck
  split_ifs
  · exact ⟨[(⟨bar.time, (st2.entry_sl - st2.entry_price) * 2,
      Reason.slHitSameBar⟩, true)], rfl, by simp [lossFlagOk]⟩
  · exact ⟨[(⟨bar.time, (st2.entry_tp - st2.entry_price) * 2,
      Reason.tpHitSameBar⟩, false)], rfl, by simp [lossFlagOk]⟩
  · exact ⟨[], by simp, by simp⟩
  · exact ⟨[(⟨bar.time, (st2.entry_price - st2.entry_sl) * 2,
      Reason.slHitSameBar⟩, true)], rfl, by simp [lossFlagOk]⟩
  · exact ⟨[(⟨bar.time, (st2.entry_price - st2.entry_tp) * 2,
      Reason.tpHitSameBar⟩, false)], rfl, by simp [lossFlagOk]⟩
  · exact ⟨[], by simp, by simp⟩
  · exact ⟨[], by simp, by simp⟩

theorem entryPhase_trades_ok (st : SimState) (bar : Bar) :
    ∃ new, (entryPhase st bar).closed_trades = st.closed_trades ++ new ∧
      ∀ tb ∈ new, lossFlagOk tb := by
  cases hps : st.pending_signal with
  | none => exact ⟨[], by simp [entryPhase, hps], by simp⟩
  | some sig =>
    simp only [entryPhase, hps]
    by_cases hpos : st.current_pos ≠ 0
    · rw [if_pos hpos]
      obtain ⟨new2, h1, h2⟩ := sameBarCheck_trades_ok
        { st with
          closed_trades := st.closed_trades ++
            [(⟨bar.time,
                if st.current_pos = 1 then (bar.open_ - st.entry_price) * 2
                else (st.entry_price - bar.open_) * 2, Reason.reverse⟩,
              decide ((if st.current_pos = 1 then (bar.open_ - st.entry_price) * 2
                else (st.entry_price - bar.open_) * 2) < 0))],
          twin := if (if st.current_pos = 1 then (bar.open_ - st.entry_price) * 2
              else (st.entry_price - bar.open_) * 2) < 0 then
              record_loss st.twin bar.time else st.twin,
          current_pos := dirInt sig.signal, entry_price := bar.open_,
          entry_sl := sig.sl, entry_tp := fillTp sig bar, pending_signal := none }
        bar
      refine ⟨(⟨bar.time,
          if st.current_pos = 1 then (bar.open_ - st.entry_price) * 2
          else (st.entry_price - bar.open_) * 2, Reason.reverse⟩,
        decide ((if st.current_pos = 1 then (bar.open_ - st.entry_price) * 2
          else (st.entry_price - bar.open_) * 2) < 0)) :: new2, ?_, ?_⟩
      · rw [h1]
        simp
      · intro tb htb
        rcases List.mem_cons.mp htb with rfl | htb
        · simp [lossFlagOk]
        · exact h2 tb htb
    · rw [if_neg hpos]
      obtain ⟨new2, h1, h2⟩ := sameBarCheck_trades_ok
        { st with
          current_pos := dirInt sig.signal, entry_price := bar.open_,
          entry_sl := sig.sl, entry_tp := fillTp sig bar, pending_signal := none }
        bar
      exact ⟨new2, h1, h2⟩

theorem simStep_trades (st : SimState) (bar : Bar) :
    (simStep st bar).closed_trades =
      (entryPhase (exitPhase st bar) bar).closed_trades := by
  unfold simStep
  rcases h : (on_bar_close (entryPhase (exitPhase st bar) bar).twin bar).2 with _ | sig <;>
    simp [h]

theorem simRun_trades_ok (bars : List Bar) :
    ∀ st : SimState, (∀ tb ∈ st.closed_trades, lossFlagOk tb) →
      ∀ tb ∈ (simRun st bars).closed_trades, lossFlagOk tb := by
  induction bars with
  | nil => intro st h; exact h
  | cons bar rest ih =>
    intro st h
    apply ih
    rw [simStep_trades]
    obtain ⟨n1, e1, k1⟩ := exitPhase_trades_ok st bar
    obtain ⟨n2, e2, k2⟩ := entryPhase_trades_ok (exitPhase st bar) bar
    rw [e2, e1]
    intro tb htb
    rcases List.mem_append.mp htb with htb | htb
    · rcases List.mem_append.mp htb with htb | htb
      · exact h tb htb
      · exact k1 tb htb
    · exact k2 tb htb

/-- The single closed trade of the scenario run: a same-bar stop close with
positive PnL `193/56` at which `record_loss` was invoked (ghost flag). -/
def c2trade : Trade × Bool := (⟨56280000, 193/56, Reason.slHitSameBar⟩, true)

/-- Counterexample to C2.  In the concrete scenario run, the only closed
trade is a same-bar stop exit whose fill gapped below the stop: its realized
PnL `193/56` is positive, yet `record_loss` was invoked at that close (ghost
flag `true`) — the cooldown is armed on a non-losing close. -/
theorem C2_cooldown_arming_counterexample :
    (run_simulation false false false masterBars).closed_trades = [c2trade] ∧
    c2trade.2 = true ∧ ¬ (c2trade.1.pnl < 0) := by
  decide

/-- C2 as amended.  In every run, `record_loss` is invoked at a close exactly
when the close is a stop exit (reason `SL Hit` or `SL Hit (Same Bar)`) or a
reversal close with negative PnL — not exactly when the realized PnL is
negative, since a stop exit whose fill gapped through the stop can close with
non-negative PnL and still arm the cooldown.  Target exits never invoke it. -/
theorem C2_cooldown_arming_amended (r c u : Bool) (bars : List Bar)
    (tb : Trade × Bool) (h : tb ∈ (run_simulation r c u bars).closed_trades) :
    tb.2 = true ↔ (tb.1.reason = Reason.slHit ∨ tb.1.reason = Reason.slHitSameBar ∨
      (tb.1.reason = Reason.reverse ∧ tb.1.pnl < 0)) :=
  simRun_trades_ok bars (init_sim r c u) (by simp [init_sim]) tb h

/-- Witness for C2 (amended) at the concrete scenario trade. -/
theorem C2_cooldown_arming_amended_witness :
    c2trade.2 = true ↔ (c2trade.1.reason = Reason.slHit ∨
      c2trade.1.reason = Reason.slHitSameBar ∨
      (c2trade.1.reason = Reason.reverse ∧ c2trade.1.pnl < 0)) :=
  C2_cooldown_arming_amended false false false masterBars c2trade (by decide)

/-! ### C5: at-most-once usage -/

theorem on_bar_close_fired (s : TwinState) (bar : Bar) (sig : Signal)
    (h : (on_bar_close s bar).2 = some sig) :
    sig.lvl_id ∉ s.used_levels ∧
    (on_bar_close s bar).1.used_levels = insert sig.lvl_id s.used_levels := by
  rcases hcs : coreStep s.core bar with ⟨c2, info⟩
  cases info with
  | none =>
    rw [on_bar_close_early s bar (by rw [hcs])] at h
    simp at h
  | some i =>
    have hob := on_bar_close_of_info s bar c2 i hcs
    rw [hob] at h ⊢
    simp only at h ⊢
    have hts := triggerEval_some (takingTrades s c2 bar) s.used_levels i.atr bar
      i.active_high i.active_low sig h
    exact ⟨hts.2.1, hts.2.2⟩

theorem on_bar_close_nofire (s : TwinState) (bar : Bar)
    (h : (on_bar_close s bar).2 = none) :
    (on_bar_close s bar).1.used_levels = s.used_levels := by
  rcases hcs : coreStep s.core bar with ⟨c2, info⟩
  cases info with
  | none => rw [on_bar_close_early s bar (by rw [hcs])]
  | some i =>
    have hob := on_bar_close_of_info s bar c2 i hcs
    rw [hob] at h ⊢
    simp only at h ⊢
    exact triggerEval_none_snd _ _ _ _ _ _ h

theorem on_bar_close_used_mono (s : TwinState) (bar : Bar) :
    s.used_levels ⊆ (on_bar_close s bar).1.used_levels := by
  rcases h : (on_bar_close s bar).2 with _ | sig
  · rw [on_bar_close_nofire s bar h]
  · rw [(on_bar_close_fired s bar sig h).2]
    exact Finset.subset_insert _ _

/-- Fields of the execution state untouched by the exit and entry phases: the
twin's core, used set and flags, and the ghost fired log (the phases touch
the twin only through `record_loss`). -/
def ghostEq (a b : SimState) : Prop :=
  a.twin.core = b.twin.core ∧ a.twin.used_levels = b.twin.used_levels ∧
  a.twin.use_regime_gate = b.twin.use_regime_gate ∧
  a.twin.use_cooldown = b.twin.use_cooldown ∧
  a.twin.use_usage_gate = b.twin.use_usage_gate ∧
  a.fired_log = b.fired_log

theorem ghostEq_trans {a b c : SimState} (h1 : ghostEq a b) (h2 : ghostEq b c) :
    ghostEq a c :=
  ⟨h1.1.trans h2.1, h1.2.1.trans h2.2.1, h1.2.2.1.trans h2.2.2.1,
    h1.2.2.2.1.trans h2.2.2.2.1, h1.2.2.2.2.1.trans h2.2.2.2.2.1,
    h1.2.2.2.2.2.trans h2.2.2.2.2.2⟩

theorem exitPhase_ghost (st : SimState) (bar : Bar) :
    ghostEq (exitPhase st bar) st := by
  unfold exitPhase
  split_ifs <;> exact ⟨rfl, rfl, rfl, rfl, rfl, rfl⟩

theorem sameBarCheck_ghost (st2 : SimState) (bar : Bar) :
    ghostEq (sameBarCheck st2 bar) st2 := by
  unfold sameBarCheck
  split_ifs <;> exact ⟨rfl, rfl, rfl, rfl, rfl, rfl⟩

theorem entryPhase_ghost (st : SimState) (bar : Bar) :
    ghostEq (entryPhase st bar) st := by
  cases hps : st.pending_signal with
  | none =>
    simp only [entryPhase, hps]
    exact ⟨rfl, rfl, rfl, rfl, rfl, rfl⟩
  | some sig =>
    simp only [entryPhase, hps]
    by_cases hpos : st.current_pos ≠ 0
    · rw [if_pos hpos]
      refine ghostEq_trans (sameBarCheck_ghost _ bar) ?_
      split_ifs <;> exact ⟨rfl, rfl, rfl, rfl, rfl, rfl⟩
    · rw [if_neg hpos]
      exact ghostEq_trans (sameBarCheck_ghost _ bar) ⟨rfl, rfl, rfl, rfl, rfl, rfl⟩

theorem phases_ghost (st : SimState) (bar : Bar) :
    ghostEq (entryPhase (exitPhase st bar) bar) st :=
  ghostEq_trans (entryPhase_ghost (exitPhase st bar) bar) (exitPhase_ghost st bar)

theorem simStep_twin (st : SimState) (bar : Bar) :
    (simStep st bar).twin =
      (on_bar_close (entryPhase (exitPhase st bar) bar).twin bar).1 := by
  unfold simStep
  rcases h : (on_bar_close (entryPhase (exitPhase st bar) bar).twin bar).2
    with _ | sig <;> simp [h]

theorem simStep_fired (st : SimState) (bar : Bar) :
    (simStep st bar).fired_log =
      (match (on_bar_close (entryPhase (exitPhase st bar) bar).twin bar).2 with
        | some sig => (entryPhase (exitPhase st bar) bar).fired_log ++ [sig.lvl_id]
        | none => (entryPhase (exitPhase st bar) bar).fired_log) := by
  unfold simStep
  rcases h : (on_bar_close (entryPhase (exitPhase st bar) bar).twin bar).2
    with _ | sig <;> simp [h]

theorem simStep_inv1 (st : SimState) (bar : Bar)
    (h1 : st.fired_log.Nodup)
    (h2 : ∀ x ∈ st.fired_log, x ∈ st.twin.used_levels) :
    (simStep st bar).fired_log.Nodup ∧
    ∀ x ∈ (simStep st bar).fired_log, x ∈ (simStep st bar).twin.used_levels := by
  have hg := phases_ghost st bar
  have hlog : (entryPhase (exitPhase st bar) bar).fired_log = st.fired_log :=
    hg.2.2.2.2.2
  have hused : (entryPhase (exitPhase st bar) bar).twin.used_levels =
      st.twin.used_levels := hg.2.1
  rw [simStep_twin, simStep_fired]
  rcases h : (on_bar_close (entryPhase (exitPhase st bar) bar).twin bar).2
    with _ | sig
  · simp only
    rw [on_bar_close_nofire _ _ h, hlog, hused]
    exact ⟨h1, h2⟩
  · simp only
    have hf := on_bar_close_fired _ bar sig h
    have hnot : sig.lvl_id ∉ st.fired_log := by
      intro hx
      exact hf.1 (hused ▸ h2 _ hx)
    refine ⟨?_, ?_⟩
    · rw [hlog]
      simp [List.nodup_append, h1, hnot]
    · intro x hx
      rw [hf.2, hused]
      rw [hlog] at hx
      rcases List.mem_append.mp hx with hx | hx
      · exact Finset.mem_insert_of_mem (h2 _ hx)
      · simp only [List.mem_singleton] at hx
        subst hx
        exact Finset.mem_insert_self _ _

theorem simStep_used_mono (st : SimState) (bar : Bar) :
    st.twin.used_levels ⊆ (simStep st bar).twin.used_levels := by
  have hg := phases_ghost st bar
  rw [simStep_twin]
  intro x hx
  refine on_bar_close_used_mono _ bar ?_
  rw [hg.2.1]
  exact hx

theorem simRun_append (st : SimState) (l1 l2 : List Bar) :
    simRun st (l1 ++ l2) = simRun (simRun st l1) l2 := by
  induction l1 generalizing st with
  | nil => rfl
  | cons b rest ih => simp [simRun, ih]

theorem simRun_used_mono (bars : List Bar) :
    ∀ st : SimState, st.twin.used_levels ⊆ (simRun st bars).twin.used_levels := by
  induction bars with
  | nil => intro st; exact Finset.Subset.refl _
  | cons b rest ih =>
    intro st
    exact (simStep_used_mono st b).trans (ih _)

theorem simRun_inv1 (bars : List Bar) :
    ∀ st : SimState, st.fired_log.Nodup →
      (∀ x ∈ st.fired_log, x ∈ st.twin.used_levels) →
      (simRun st bars).fired_log.Nodup ∧
      ∀ x ∈ (simRun st bars).fired_log, x ∈ (simRun st bars).twin.used_levels := by
  induction bars with
  | nil => intro st h1 h2; exact ⟨h1, h2⟩
  | cons b rest ih =>
    intro st h1 h2
    have hs := simStep_inv1 st b h1 h2
    exact ih _ hs.1 hs.2

/-- C5.  At-most-once usage: over any full run, the ghost log of level ids of
emitted signals has no duplicate (no level id fires twice), every fired id is
in the used set, and the used set only ever grows — extending the feed never
removes a used id, so a used level can never re-fire. -/
theorem C5_at_most_once_usage (r c u : Bool) (bars : List Bar) :
    (run_simulation r c u bars).fired_log.Nodup ∧
    (∀ x ∈ (run_simulation r c u bars).fired_log,
      x ∈ (run_simulation r c u bars).twin.used_levels) ∧
    (∀ bars2, (run_simulation r c u bars).twin.used_levels ⊆
      (run_simulation r c u (bars ++ bars2)).twin.used_levels) := by
  have h := simRun_inv1 bars (init_sim r c u) (by simp [init_sim])
    (by simp [init_sim])
  refine ⟨h.1, h.2, fun bars2 => ?_⟩
  show (simRun (init_sim r c u) bars).twin.used_levels ⊆
    (simRun (init_sim r c u) (bars ++ bars2)).twin.used_levels
  rw [simRun_append]
  exact simRun_used_mono bars2 _

/-- Witness for C5 at the concrete scenario feed: the emission log of the
sampling run has no duplicate level id. -/
theorem C5_at_most_once_usage_witness :
    (run_simulation false false false masterBars).fired_log.Nodup :=
  (C5_at_most_once_usage false false false masterBars).1

/-! ### C3: monotone gate effect -/

theorem on_bar_close_flags (s : TwinState) (bar : Bar) :
    (on_bar_close s bar).1.use_regime_gate = s.use_regime_gate ∧
    (on_bar_close s bar).1.use_cooldown = s.use_cooldown ∧
    (on_bar_close s bar).1.use_usage_gate = s.use_usage_gate := by
  simp only [on_bar_close]
  rcases hcs : coreStep s.core bar with ⟨c2, info⟩
  cases info <;> exact ⟨rfl, rfl, rfl⟩

theorem takingTrades_flags_off (s : TwinState) (c2 : TwinCore) (bar : Bar)
    (h1 : s.use_regime_gate = false) (h2 : s.use_cooldown = false) :
    takingTrades s c2 bar = inSession bar.time := by
  simp [takingTrades, isGatedByRegime, isCooldownActive, h1, h2]

theorem takingTrades_inSession (s : TwinState) (c2 : TwinCore) (bar : Bar)
    (h : takingTrades s c2 bar = true) : inSession bar.time = true := by
  simp only [takingTrades, Bool.and_eq_true] at h
  exact h.2

theorem triggerEval_mono (taking : Bool) (used : Finset Int) (atr : ℚ)
    (bar : Bar) (ah al : Option (ℚ × Int)) :
    used ⊆ (triggerEval taking used atr bar ah al).2 := by
  rcases h : (triggerEval taking used atr bar ah al).1 with _ | sig
  · rw [triggerEval_none_snd _ _ _ _ _ _ h]
  · rw [(triggerEval_some _ _ _ _ _ _ sig h).2.2]
    exact Finset.subset_insert _ _

theorem triggerEval_subset (t1 t2 : Bool) (ug uo : Finset Int) (atr : ℚ)
    (bar : Bar) (ah al : Option (ℚ × Int)) (hsub : ug ⊆ uo)
    (hts : t1 = true → t2 = true) :
    (triggerEval t1 ug atr bar ah al).2 ⊆ (triggerEval t2 uo atr bar ah al).2 := by
  have hmono := triggerEval_mono t2 uo atr bar ah al
  rcases triggerEval_spec t1 ug atr bar ah al with
    ⟨p, i, hah, ht, hu, hh, hc, heq⟩ | ⟨p, i, hal, ht, hu, hl, hc, hns, heq⟩ | heq
  · rw [heq]
    by_cases hio : i ∈ uo
    · intro x hx
      rcases Finset.mem_insert.mp hx with rfl | hx
      · exact hmono hio
      · exact hmono (hsub hx)
    · have hfo := triggerEval_short_fire t2 uo atr bar al p i (hts ht) hio hh hc
      rw [hah, hfo]
      exact Finset.insert_subset_insert _ hsub
  · rw [heq]
    by_cases hio : i ∈ uo
    · intro x hx
      rcases Finset.mem_insert.mp hx with rfl | hx
      · exact hmono hio
      · exact hmono (hsub hx)
    · have hnso : ∀ q j, ah = some (q, j) →
          ¬ (j ∉ uo ∧ q < bar.high ∧ bar.close ≤ q + atr * (5/100)) := by
        intro q j hqj hcontra
        exact hns q j hqj
          ⟨ht, fun hj => hcontra.1 (hsub hj), hcontra.2.1, hcontra.2.2⟩
      have hfo := triggerEval_long_fire t2 uo atr bar ah p i (hts ht) hio hl hc hnso
      rw [hal, hfo]
      exact Finset.insert_subset_insert _ hsub
  · rw [heq]
    exact hsub.trans hmono

theorem on_bar_close_used_lockstep (g o : TwinState) (bar : Bar)
    (hcore : g.core = o.core) (hro : o.use_regime_gate = false)
    (hco : o.use_cooldown = false) (hsub : g.used_levels ⊆ o.used_levels) :
    (on_bar_close g bar).1.used_levels ⊆ (on_bar_close o bar).1.used_levels := by
  rcases hcs : coreStep g.core bar with ⟨c2, info⟩
  have hcs2 : coreStep o.core bar = (c2, info) := by rw [← hcore]; exact hcs
  cases info with
  | none =>
    rw [on_bar_close_early g bar (by rw [hcs]),
      on_bar_close_early o bar (by rw [hcs2])]
    exact hsub
  | some i =>
    rw [on_bar_close_of_info g bar c2 i hcs, on_bar_close_of_info o bar c2 i hcs2]
    simp only
    refine triggerEval_subset _ _ _ _ _ _ _ _ hsub ?_
    intro htg
    rw [takingTrades_flags_off o c2 bar hro hco]
    exact takingTrades_inSession g c2 bar htg

theorem on_bar_close_card (s : TwinState) (bar : Bar) :
    (on_bar_close s bar).1.used_levels.card =
      s.used_levels.card +
        (match (on_bar_close s bar).2 with | some _ => 1 | none => 0) := by
  rcases h : (on_bar_close s bar).2 with _ | sig
  · simp [on_bar_close_nofire s bar h]
  · simp only
    have hf := on_bar_close_fired s bar sig h
    rw [hf.2, Finset.card_insert_of_not_mem hf.1]

theorem simStep_count (st : SimState) (bar : Bar)
    (h : st.fired_log.length = st.twin.used_levels.card) :
    (simStep st bar).fired_log.length = (simStep st bar).twin.used_levels.card := by
  have hg := phases_ghost st bar
  have hlen : (entryPhase (exitPhase st bar) bar).fired_log.length =
      st.fired_log.length := by rw [hg.2.2.2.2.2]
  have hcard : (entryPhase (exitPhase st bar) bar).twin.used_levels.card =
      st.twin.used_levels.card := by rw [hg.2.1]
  rw [simStep_twin, simStep_fired]
  have hc := on_bar_close_card (entryPhase (exitPhase st bar) bar).twin bar
  rcases hsig : (on_bar_close (entryPhase (exitPhase st bar) bar).twin bar).2
    with _ | sig <;> rw [hsig] at hc
  · simp only
    rw [hc, hlen, hcard, h]
    simp
  · simp only [List.length_append, List.length_singleton]
    rw [hc, hlen, hcard, h]

/-- The relation between a gated run and the sampling-mode run over the same
bars: identical flag-independent twin cores, the sampling run has its
regime/cooldown flags off, its used set dominates the gated run's, and in
both runs the ghost signal count equals the size of the used set. -/
def lockstep (g o : SimState) : Prop :=
  g.twin.core = o.twin.core ∧
  o.twin.use_regime_gate = false ∧ o.twin.use_cooldown = false ∧
  g.twin.used_levels ⊆ o.twin.used_levels ∧
  g.fired_log.length = g.twin.used_levels.card ∧
  o.fired_log.length = o.twin.used_levels.card

theorem simStep_lockstep (g o : SimState) (bar : Bar) (h : lockstep g o) :
    lockstep (simStep g bar) (simStep o bar) := by
  obtain ⟨hcore, hro, hco, hsub, hgc, hoc⟩ := h
  have hgg := phases_ghost g bar
  have hgo := phases_ghost o bar
  have hcore2 : (entryPhase (exitPhase g bar) bar).twin.core =
      (entryPhase (exitPhase o bar) bar).twin.core := by
    rw [hgg.1, hgo.1]
    exact hcore
  have hro2 : (entryPhase (exitPhase o bar) bar).twin.use_regime_gate = false := by
    rw [hgo.2.2.1]
    exact hro
  have hco2 : (entryPhase (exitPhase o bar) bar).twin.use_cooldown = false := by
    rw [hgo.2.2.2.1]
    exact hco
  have hsub2 : (entryPhase (exitPhase g bar) bar).twin.used_levels ⊆
      (entryPhase (exitPhase o bar) bar).twin.used_levels := by
    rw [hgg.2.1, hgo.2.1]
    exact hsub
  refine ⟨?_, ?_, ?_, ?_, ?_, ?_⟩
  · rw [simStep_twin, simStep_twin, on_bar_close_core, on_bar_close_core, hcore2]
  · rw [simStep_twin, (on_bar_close_flags _ bar).1]
    exact hro2
  · rw [simStep_twin, (on_bar_close_flags _ bar).2.1]
    exact hco2
  · rw [simStep_twin, simStep_twin]
    exact on_bar_close_used_lockstep _ _ bar hcore2 hro2 hco2 hsub2
  · exact simStep_count g bar hgc
  · exact simStep_count o bar hoc

theorem simRun_lockstep (bars : List Bar) :
    ∀ g o : SimState, lockstep g o → lockstep (simRun g bars) (simRun o bars) := by
  induction bars with
  | nil => intro g o h; exact h
  | cons b rest ih =>
    intro g o h
    exact ih _ _ (simStep_lockstep g o b h)

/-- C3.  Monotone gate effect: over any bar feed, the sampling-mode run (all
gate flags off) emits at least as many signals as the run with any
combination of gate flags enabled. -/
theorem C3_monotone_gate_effect (r c u : Bool) (bars : List Bar) :
    (run_simulation r c u bars).fired_log.length ≤
      (run_simulation false false false bars).fired_log.length := by
  have h := simRun_lockstep bars (init_sim r c u) (init_sim false false false)
    ⟨rfl, rfl, rfl, Finset.Subset.refl _, by simp [init_sim, init_twin],
      by simp [init_sim, init_twin]⟩
  obtain ⟨_, _, _, hsub, hgc, hoc⟩ := h
  show (simRun (init_sim r c u) bars).fired_log.length ≤
    (simRun (init_sim false false false) bars).fired_log.length
  rw [hgc, hoc]
  exact Finset.card_le_card hsub

/-- Witness for C3 at the concrete scenario feed with all gates enabled. -/
theorem C3_monotone_gate_effect_witness :
    (run_simulation true true true masterBars).fired_log.length ≤
      (run_simulation false false false masterBars).fired_log.length :=
  C3_monotone_gate_effect true true true masterBars

end Kaizen
